import Mathlib

/-!
Verification of the reviewer-assignment service (`Avito2025`).

The development shallowly embeds the Go service layer
(`internal/service`, the `ReviewerService` methods together with the
helpers `filterReviewers`, `filterForReplacement`, `pickReviewers`,
`reviewerIndex` and `contains`) and the domain model
(`internal/domain/models.go`, `internal/domain/errors.go`).

The persistence layer is an external collaborator in the design: it is
modelled as a functional store (`Store`) exposing exactly the repository
contract the service consumes (`GetUser`, `ListUsersByTeam`,
`GetPullRequest`, `CreatePullRequest`, `UpdatePullRequest`), with
lookups by primary key and update-by-replace semantics.

Go's `*rand.Rand` shuffle is modelled by an explicit `shuffle`
parameter; faithfulness of an instantiation is the hypothesis that
`shuffle l` is a permutation of `l`.  `time.Now()` is modelled by an
explicit `now : Nat` argument, and `*time.Time` by `Option Nat`.
-/

namespace Avito

/-- Embeds `domain.User` (models.go). -/
structure User where
  ID : String
  Username : String
  TeamName : String
  IsActive : Bool
deriving DecidableEq, Repr

/-- Embeds `domain.PRStatus`, a Go string type; statuses are string constants. -/
abbrev PRStatus := String

/-- Embeds `domain.StatusOpen`. -/
def StatusOpen : PRStatus := "OPEN"

/-- Embeds `domain.StatusMerged`. -/
def StatusMerged : PRStatus := "MERGED"

/-- Embeds `domain.PullRequest` (models.go); `MergedAt *time.Time` becomes `Option Nat`. -/
structure PullRequest where
  ID : String
  Name : String
  AuthorID : String
  Status : PRStatus
  AssignedReviewers : List String
  CreatedAt : Nat
  MergedAt : Option Nat
deriving DecidableEq, Repr

/-- The sentinel errors of `domain/errors.go`. -/
inductive DomainError where
  | ErrTeamExists
  | ErrPRExists
  | ErrPRMerged
  | ErrReviewerNotFound
  | ErrNoReplacement
  | ErrTeamNotFound
  | ErrUserNotFound
  | ErrPullRequestNotFound
deriving DecidableEq, Repr

/-- Embeds `contains` (service.go): linear scan for `target` among `items`. -/
def contains (items : List String) (target : String) : Bool :=
  match items with
  | [] => false
  | item :: rest => item == target || contains rest target

/-- Embeds `reviewerIndex` (service.go): index of the first occurrence of
`target`, `-1` when absent. -/
def reviewerIndex (reviewers : List String) (target : String) : Int :=
  match reviewers with
  | [] => -1
  | reviewer :: rest =>
    if reviewer == target then 0
    else
      let i := reviewerIndex rest target
      if i == -1 then -1 else i + 1

/-- Embeds `filterReviewers` (service.go): drop the author and inactive users. -/
def filterReviewers (users : List User) (authorID : String) : List User :=
  users.filter fun user => user.ID != authorID && user.IsActive

/-- Embeds `filterForReplacement` (service.go): drop the removed reviewer,
inactive users, and everyone already assigned. -/
def filterForReplacement (users : List User) (oldReviewerID : String)
    (assigned : List String) : List User :=
  users.filter fun user =>
    user.ID != oldReviewerID && user.IsActive && !(contains assigned user.ID)

/-- Embeds `pickReviewers` (service.go): shuffle a copy of `users` and take
the first `limit` ids, capping `limit` at the pool size.  The Go
`rnd.Shuffle` is the `shuffle` parameter. -/
def pickReviewers (shuffle : List User → List User) (users : List User)
    (limit : Int) : List String :=
  if users.length = 0 ∨ limit ≤ 0 then []
  else
    let copyUsers := shuffle users
    let limit := if (copyUsers.length : Int) < limit then (copyUsers.length : Int) else limit
    (copyUsers.take limit.toNat).map User.ID

/-- The functional model of the persistence layer: the repository rows the
service reads and writes.  `teams` mirrors the `teams` table, `users` the
`users` table (user ids are primary keys), `prs` the `pull_requests` rows
joined with their reviewer sets. -/
structure Store where
  teams : List String
  users : List User
  prs : List PullRequest
deriving Repr

/-- Embeds `Repository.GetUser`: lookup by user id, `ErrUserNotFound` on a miss. -/
def getUser (s : Store) (userID : String) : Except DomainError User :=
  match s.users.find? (fun u => u.ID == userID) with
  | some u => .ok u
  | none => .error .ErrUserNotFound

/-- Embeds `Repository.ListUsersByTeam`: the team must exist, then all users
whose `TeamName` matches are returned. -/
def listUsersByTeam (s : Store) (teamName : String) : Except DomainError (List User) :=
  if s.teams.contains teamName then
    .ok (s.users.filter fun u => u.TeamName == teamName)
  else .error .ErrTeamNotFound

/-- Embeds `Repository.GetPullRequest`: lookup by PR id,
`ErrPullRequestNotFound` on a miss. -/
def getPullRequest (s : Store) (id : String) : Except DomainError PullRequest :=
  match s.prs.find? (fun p => p.ID == id) with
  | some pr => .ok pr
  | none => .error .ErrPullRequestNotFound

/-- Embeds `Repository.CreatePullRequest`: insert, `ErrPRExists` when the id
is already taken (the store's uniqueness constraint). -/
def createPullRequestStore (s : Store) (pr : PullRequest) :
    Except DomainError (Store × PullRequest) :=
  if (s.prs.find? (fun p => p.ID == pr.ID)).isSome then .error .ErrPRExists
  else .ok ({ s with prs := s.prs ++ [pr] }, pr)

/-- Embeds `Repository.UpdatePullRequest`: replace the row with matching id,
`ErrPullRequestNotFound` when no row matches. -/
def updatePullRequestStore (s : Store) (pr : PullRequest) :
    Except DomainError (Store × PullRequest) :=
  if (s.prs.find? (fun p => p.ID == pr.ID)).isSome then
    .ok ({ s with prs := s.prs.map fun p => if p.ID == pr.ID then pr else p }, pr)
  else .error .ErrPullRequestNotFound

/-- Embeds `ReviewerService.CreatePullRequest` (service.go lines 74–91): load
the author, load the author's team roster, filter, pick two reviewers, force
status `OPEN` and the creation timestamp, and insert. -/
def CreatePullRequest (shuffle : List User → List User) (s : Store) (now : Nat)
    (pr : PullRequest) : Except DomainError (Store × PullRequest) :=
  match getUser s pr.AuthorID with
  | .error err => .error err
  | .ok author =>
    match listUsersByTeam s author.TeamName with
    | .error err => .error err
    | .ok members =>
      let candidates := filterReviewers members pr.AuthorID
      let pr := { pr with
        AssignedReviewers := pickReviewers shuffle candidates 2,
        Status := StatusOpen,
        CreatedAt := now }
      createPullRequestStore s pr

/-- Embeds `ReviewerService.MergePullRequest` (service.go lines 93–108): load
the PR; if already merged return it unchanged without writing; otherwise set
status `MERGED` and the merge timestamp and persist. -/
def MergePullRequest (s : Store) (now : Nat) (prID : String) :
    Except DomainError (Store × PullRequest) :=
  match getPullRequest s prID with
  | .error err => .error err
  | .ok pr =>
    if pr.Status == StatusMerged then .ok (s, pr)
    else
      let pr := { pr with Status := StatusMerged, MergedAt := some now }
      updatePullRequestStore s pr

/-- Embeds `ReviewerService.ReassignReviewer` (service.go lines 110–152).
The Go `replacement[0]` is guarded by the emptiness check, embedded as
`headD`. -/
def ReassignReviewer (shuffle : List User → List User) (s : Store)
    (prID oldReviewerID : String) :
    Except DomainError (Store × PullRequest × String) :=
  match getPullRequest s prID with
  | .error err => .error err
  | .ok pr =>
    if pr.Status == StatusMerged then .error .ErrPRMerged
    else
      let index := reviewerIndex pr.AssignedReviewers oldReviewerID
      if index == -1 then .error .ErrReviewerNotFound
      else
        match getUser s oldReviewerID with
        | .error err => .error err
        | .ok oldReviewer =>
          match listUsersByTeam s oldReviewer.TeamName with
          | .error err => .error err
          | .ok members =>
            let candidates := filterForReplacement members oldReviewerID pr.AssignedReviewers
            if candidates.length = 0 then .error .ErrNoReplacement
            else
              let replacement := pickReviewers shuffle candidates 1
              if replacement.length = 0 then .error .ErrNoReplacement
              else
                let pr := { pr with
                  AssignedReviewers :=
                    pr.AssignedReviewers.set index.toNat (replacement.headD "") }
                match updatePullRequestStore s pr with
                | .error err => .error err
                | .ok (s2, updatedPR) => .ok (s2, updatedPR, replacement.headD "")

/-- The pull-request value the HTTP handler passes to
`service.CreatePullRequest` (`transport/http` `CreatePullRequest`): only
`ID`, `Name` and `AuthorID` are populated; the remaining fields are Go zero
values. -/
def handlerCreateInput (id name authorID : String) : PullRequest :=
  { ID := id, Name := name, AuthorID := authorID, Status := "",
    AssignedReviewers := [], CreatedAt := 0, MergedAt := none }

/-- Spec-side definition (§4.1): the replacement candidate pool in the
spec's words — team members minus the removed reviewer, minus inactive
users, minus every id already in the PR's reviewer set. -/
def replacementPoolSpec (members : List User) (oldReviewerID : String)
    (assigned : List String) : List User :=
  members.filter fun u =>
    decide (u.ID ≠ oldReviewerID ∧ u.IsActive = true ∧ u.ID ∉ assigned)

/-- Spec-side definition (§4.2 `ReassignReviewer`): the error the operation
must produce, checked in the spec's order — `NotFound` for a missing PR,
`PRMerged` for a terminal PR, `ReviewerNotAssigned` when the removed id is
not in the reviewer set, `NotFound` for an unknown user, and
`NoReplacementAvailable` exactly when the filtered pool is empty; `none`
means the operation must succeed.  Store errors propagate unchanged (§7). -/
def reassignErrorSpec (s : Store) (prID oldReviewerID : String) : Option DomainError :=
  match getPullRequest s prID with
  | .error _ => some .ErrPullRequestNotFound
  | .ok pr =>
    if pr.Status = StatusMerged then some .ErrPRMerged
    else if oldReviewerID ∉ pr.AssignedReviewers then some .ErrReviewerNotFound
    else
      match getUser s oldReviewerID with
      | .error _ => some .ErrUserNotFound
      | .ok oldReviewer =>
        match listUsersByTeam s oldReviewer.TeamName with
        | .error e => some e
        | .ok members =>
          if replacementPoolSpec members oldReviewerID pr.AssignedReviewers = [] then
            some .ErrNoReplacement
          else none

/-- A store is consistent when every stored PR carries a merge timestamp
exactly when its status is `MERGED`. -/
def storeConsistent (s : Store) : Prop :=
  ∀ pr ∈ s.prs, (pr.MergedAt.isSome = true ↔ pr.Status = StatusMerged)

/-! Concrete data used by witnesses and counterexamples. -/

/-- Active user `u1` of team `backend`. -/
def u1 : User := { ID := "u1", Username := "Alice", TeamName := "backend", IsActive := true }

/-- Active user `u2` of team `backend`. -/
def u2 : User := { ID := "u2", Username := "Bob", TeamName := "backend", IsActive := true }

/-- Active user `u3` of team `backend`. -/
def u3 : User := { ID := "u3", Username := "Charlie", TeamName := "backend", IsActive := true }

/-- Inactive user `u4` of team `backend`. -/
def u4 : User := { ID := "u4", Username := "Dora", TeamName := "backend", IsActive := false }

/-- An open PR authored by `u1`, reviewers `u2` and `u3`. -/
def demoOpenPR : PullRequest :=
  { ID := "pr-open", Name := "Open", AuthorID := "u1", Status := StatusOpen,
    AssignedReviewers := ["u2", "u3"], CreatedAt := 1, MergedAt := none }

/-- A merged PR authored by `u1`, merged at time 5. -/
def demoMergedPR : PullRequest :=
  { ID := "pr-merged", Name := "Merged", AuthorID := "u1", Status := StatusMerged,
    AssignedReviewers := ["u2", "u3"], CreatedAt := 1, MergedAt := some 5 }

/-- A store with one team of four users and two PRs. -/
def demoStore : Store :=
  { teams := ["backend"], users := [u1, u2, u3, u4], prs := [demoOpenPR, demoMergedPR] }

/-- Author `a` of the two-user team `core`. -/
def pairAuthor : User := { ID := "a", Username := "Ana", TeamName := "core", IsActive := true }

/-- The only teammate `b` of the two-user team `core`. -/
def pairMate : User := { ID := "b", Username := "Ben", TeamName := "core", IsActive := true }

/-- A store with the two-user team `core` and no PRs yet. -/
def pairStore0 : Store := { teams := ["core"], users := [pairAuthor, pairMate], prs := [] }

/-- The PR `CreatePullRequest` produces in `pairStore0` for author `a`:
the only candidate `b` becomes the single reviewer. -/
def pairPR1 : PullRequest :=
  { ID := "pr-1", Name := "Demo", AuthorID := "a", Status := StatusOpen,
    AssignedReviewers := ["b"], CreatedAt := 0, MergedAt := none }

/-- Store state after creating `pairPR1`. -/
def pairStore1 : Store := { pairStore0 with prs := [pairPR1] }

/-- The PR after reassigning reviewer `b`: the author `a` is selected as the
replacement. -/
def pairPR2 : PullRequest := { pairPR1 with AssignedReviewers := ["a"] }

/-- Store state after the reassignment that selects the author. -/
def pairStore2 : Store := { pairStore0 with prs := [pairPR2] }

/-- The PR created in `demoStore` for author `u1` at time 3 with the identity
shuffle: reviewers `u2` and `u3` (the active non-author members). -/
def demoCreatedPR : PullRequest :=
  { ID := "pr-new", Name := "New", AuthorID := "u1", Status := StatusOpen,
    AssignedReviewers := ["u2", "u3"], CreatedAt := 3, MergedAt := none }

/-- Store state after creating `demoCreatedPR` in `demoStore`. -/
def demoStoreCreate : Store :=
  { demoStore with prs := demoStore.prs ++ [demoCreatedPR] }

/-- A creation input carrying caller-supplied status and reviewers that the
service must discard. -/
def dirtyInput : PullRequest :=
  { ID := "pr-new", Name := "New", AuthorID := "u1", Status := "MERGED",
    AssignedReviewers := ["zz", "u1"], CreatedAt := 42, MergedAt := none }

/-- The open PR after reassigning reviewer `u2` with the identity shuffle:
the only candidate `u1` takes position 0. -/
def demoReassignedPR : PullRequest :=
  { demoOpenPR with AssignedReviewers := ["u1", "u3"] }

/-- Store state after that reassignment. -/
def demoStoreReassign : Store :=
  { demoStore with prs := [demoReassignedPR, demoMergedPR] }

/-- The open PR after merging it at time 7. -/
def demoMergedOpenPR : PullRequest :=
  { demoOpenPR with Status := StatusMerged, MergedAt := some 7 }

/-- Store state after merging the open PR at time 7. -/
def demoStoreMerge : Store :=
  { demoStore with prs := [demoMergedOpenPR, demoMergedPR] }

/-! ### Helper lemmas about the pure helpers -/

theorem contains_nil (target : String) : contains [] target = false := rfl

theorem contains_cons (item : String) (rest : List String) (target : String) :
    contains (item :: rest) target = (item == target || contains rest target) := rfl

theorem reviewerIndex_nil (target : String) : reviewerIndex [] target = -1 := rfl

theorem reviewerIndex_cons (r : String) (rest : List String) (target : String) :
    reviewerIndex (r :: rest) target =
      if r == target then 0
      else if reviewerIndex rest target == -1 then -1
      else reviewerIndex rest target + 1 := rfl

theorem contains_iff (items : List String) (target : String) :
    contains items target = true ↔ target ∈ items := by
  induction items with
  | nil => simp [contains_nil]
  | cons item rest ih =>
    rw [contains_cons, Bool.or_eq_true, beq_iff_eq, ih, List.mem_cons]
    exact or_congr_left eq_comm

theorem contains_eq_false_iff (items : List String) (target : String) :
    contains items target = false ↔ target ∉ items := by
  rw [← Bool.not_eq_true, contains_iff]

theorem mem_filterReviewers {users : List User} {authorID : String} {u : User} :
    u ∈ filterReviewers users authorID ↔
      u ∈ users ∧ u.ID ≠ authorID ∧ u.IsActive = true := by
  simp [filterReviewers, List.mem_filter, Bool.and_eq_true, bne_iff_ne]

theorem mem_filterForReplacement {users : List User} {oldReviewerID : String}
    {assigned : List String} {u : User} :
    u ∈ filterForReplacement users oldReviewerID assigned ↔
      u ∈ users ∧ u.ID ≠ oldReviewerID ∧ u.IsActive = true ∧ u.ID ∉ assigned := by
  simp [filterForReplacement, List.mem_filter, Bool.and_eq_true, bne_iff_ne,
    Bool.not_eq_true', contains_eq_false_iff, and_assoc]

theorem filterForReplacement_eq_poolSpec (users : List User)
    (oldReviewerID : String) (assigned : List String) :
    filterForReplacement users oldReviewerID assigned =
      replacementPoolSpec users oldReviewerID assigned := by
  unfold filterForReplacement replacementPoolSpec
  apply List.filter_congr
  intro u _
  rw [Bool.eq_iff_iff]
  simp [Bool.and_eq_true, bne_iff_ne, Bool.not_eq_true', contains_eq_false_iff,
    and_assoc]

theorem reviewerIndex_spec (l : List String) (t : String) :
    (reviewerIndex l t = -1 ∧ t ∉ l) ∨
      (∃ i : Nat, reviewerIndex l t = (i : Int) ∧ l.get? i = some t) := by
  induction l with
  | nil => left; simp [reviewerIndex]
  | cons r rest ih =>
    by_cases h : r = t
    · right
      exact ⟨0, by simp [reviewerIndex_cons, h], by simp [h]⟩
    · have hbeq : (r == t) = false := by simp [h]
      rcases ih with ⟨hi, hm⟩ | ⟨i, hi, hg⟩
      · left
        refine ⟨?_, ?_⟩
        · simp [reviewerIndex_cons, hbeq, hi]
        · intro hmem
          rcases List.mem_cons.mp hmem with he | hr
          · exact h he.symm
          · exact hm hr
      · right
        have hne : ((i : Int) == -1) = false := by
          simp only [beq_eq_false_iff_ne, ne_eq]
          omega
        refine ⟨i + 1, ?_, by simpa using hg⟩
        rw [reviewerIndex_cons, hbeq, hi, hne]
        simp

theorem reviewerIndex_eq_neg_one (l : List String) (t : String) :
    reviewerIndex l t = -1 ↔ t ∉ l := by
  rcases reviewerIndex_spec l t with ⟨h1, h2⟩ | ⟨i, hi, hg⟩
  · simp [h1, h2]
  · constructor
    · intro h
      rw [hi] at h
      omega
    · intro h
      exact absurd (List.get?_mem hg) h

theorem headD_mem {l : List String} (h : l ≠ []) : l.headD "" ∈ l := by
  cases l with
  | nil => exact absurd rfl h
  | cons a t => simp

theorem pickReviewers_eq (sh : List User → List User) (users : List User)
    (limit : Int) :
    pickReviewers sh users limit =
      if users.length = 0 ∨ limit ≤ 0 then []
      else ((sh users).take
        (if ((sh users).length : Int) < limit then ((sh users).length : Int)
         else limit).toNat).map User.ID := rfl

theorem length_pickReviewers (sh : List User → List User) (users : List User)
    (limit : Int) (hp : (sh users).Perm users) :
    (pickReviewers sh users limit).length = min limit.toNat users.length := by
  have hlen : (sh users).length = users.length := hp.length_eq
  rw [pickReviewers_eq]
  split
  · rename_i h0
    simp only [List.length_nil]
    omega
  · rename_i h0
    push_neg at h0
    simp only [List.length_map, List.length_take]
    split <;> omega

theorem mem_pickReviewers {sh : List User → List User} {users : List User}
    {limit : Int} {x : String} (hp : (sh users).Perm users)
    (hx : x ∈ pickReviewers sh users limit) : ∃ u ∈ users, u.ID = x := by
  rw [pickReviewers_eq] at hx
  split at hx
  · simp at hx
  · obtain ⟨u, hu, hux⟩ := List.mem_map.mp hx
    exact ⟨u, hp.mem_iff.mp (List.mem_of_mem_take hu), hux⟩

theorem nodup_pickReviewers (sh : List User → List User) (users : List User)
    (limit : Int) (hp : (sh users).Perm users)
    (hnd : (users.map User.ID).Nodup) :
    (pickReviewers sh users limit).Nodup := by
  rw [pickReviewers_eq]
  split
  · exact List.nodup_nil
  · have h1 : ((sh users).map User.ID).Nodup := ((hp.map User.ID).nodup_iff).mpr hnd
    rw [List.map_take]
    exact h1.sublist (List.take_sublist _ _)

theorem pickReviewers_all (sh : List User → List User) (users : List User)
    (limit : Int) (hp : (sh users).Perm users)
    (h : (users.length : Int) < limit) :
    (pickReviewers sh users limit).Perm (users.map User.ID) := by
  have hlen : (sh users).length = users.length := hp.length_eq
  rw [pickReviewers_eq]
  split
  · rename_i h0
    rcases h0 with h0 | h0
    · have : users = [] := List.length_eq_zero.mp h0
      simp [this]
    · exfalso
      omega
  · have hlt : ((sh users).length : Int) < limit := by omega
    rw [if_pos hlt]
    have htn : ((sh users).length : Int).toNat = (sh users).length := by omega
    rw [htn, List.take_length]
    exact hp.map User.ID

theorem pickReviewers_ne_nil (sh : List User → List User) (users : List User)
    (limit : Int) (hp : (sh users).Perm users) (hu : users ≠ [])
    (hl : 0 < limit) : pickReviewers sh users limit ≠ [] := by
  have hlen := length_pickReviewers sh users limit hp
  intro h
  rw [h] at hlen
  simp only [List.length_nil] at hlen
  have : users.length ≠ 0 := fun hh => hu (List.length_eq_zero.mp hh)
  omega

/-! ### Helper lemmas about the store model -/

theorem getUser_ok {s : Store} {uid : String} {u : User}
    (h : getUser s uid = .ok u) : u ∈ s.users ∧ u.ID = uid := by
  unfold getUser at h
  split at h
  · rename_i v heq
    injection h with h'
    subst h'
    refine ⟨List.mem_of_find?_eq_some heq, ?_⟩
    have := List.find?_some heq
    simpa [beq_iff_eq] using this
  · cases h

theorem getUser_error {s : Store} {uid : String} {e : DomainError}
    (h : getUser s uid = .error e) : e = .ErrUserNotFound := by
  unfold getUser at h
  split at h
  · cases h
  · injection h with h'
    exact h'.symm

theorem getPullRequest_ok {s : Store} {id : String} {pr : PullRequest}
    (h : getPullRequest s id = .ok pr) :
    pr ∈ s.prs ∧ pr.ID = id ∧ s.prs.find? (fun p => p.ID == id) = some pr := by
  unfold getPullRequest at h
  split at h
  · rename_i v heq
    injection h with h'
    subst h'
    refine ⟨List.mem_of_find?_eq_some heq, ?_, heq⟩
    have := List.find?_some heq
    simpa [beq_iff_eq] using this
  · cases h

theorem getPullRequest_error {s : Store} {id : String} {e : DomainError}
    (h : getPullRequest s id = .error e) : e = .ErrPullRequestNotFound := by
  unfold getPullRequest at h
  split at h
  · cases h
  · injection h with h'
    exact h'.symm

theorem listUsersByTeam_ok {s : Store} {t : String} {ms : List User}
    (h : listUsersByTeam s t = .ok ms) :
    ms = s.users.filter (fun u => u.TeamName == t) := by
  unfold listUsersByTeam at h
  split at h
  · injection h with h'
    exact h'.symm
  · cases h

theorem mem_of_listUsersByTeam {s : Store} {t : String} {ms : List User}
    {u : User} (h : listUsersByTeam s t = .ok ms) (hu : u ∈ ms) :
    u ∈ s.users ∧ u.TeamName = t := by
  rw [listUsersByTeam_ok h] at hu
  have := List.mem_filter.mp hu
  exact ⟨this.1, by simpa [beq_iff_eq] using this.2⟩

theorem nodup_listUsersByTeam {s : Store} {t : String} {ms : List User}
    (h : listUsersByTeam s t = .ok ms) (hnd : (s.users.map User.ID).Nodup) :
    (ms.map User.ID).Nodup := by
  rw [listUsersByTeam_ok h]
  exact hnd.sublist ((List.filter_sublist _).map User.ID)

theorem updatePullRequestStore_ok {s : Store} {pr : PullRequest} {s2 : Store}
    {pr2 : PullRequest} (h : updatePullRequestStore s pr = .ok (s2, pr2)) :
    pr2 = pr ∧
      s2 = { s with prs := s.prs.map fun p => if p.ID == pr.ID then pr else p } := by
  unfold updatePullRequestStore at h
  split at h
  · injection h with h'
    obtain ⟨h1, h2⟩ := Prod.mk.injEq .. ▸ h'
    exact ⟨h2.symm, h1.symm⟩
  · cases h

theorem updatePullRequestStore_found {s : Store} {pr : PullRequest}
    (h : (s.prs.find? (fun p => p.ID == pr.ID)).isSome) :
    updatePullRequestStore s pr =
      .ok ({ s with prs := s.prs.map fun p => if p.ID == pr.ID then pr else p }, pr) := by
  unfold updatePullRequestStore
  rw [if_pos h]

theorem find?_set_id (l : List PullRequest) (pr newPR : PullRequest)
    (id : String) (hid : newPR.ID = pr.ID) :
    l.find? (fun p => p.ID == id) = some pr →
      (l.map fun p => if p.ID == newPR.ID then newPR else p).find?
        (fun p => p.ID == id) = some newPR := by
  induction l with
  | nil => intro h; simp at h
  | cons a rest ih =>
    intro hfind
    have hpr : pr.ID = id := by
      have := List.find?_some hfind
      simpa [beq_iff_eq] using this
    rw [List.map_cons]
    by_cases ha : a.ID = id
    · rw [List.find?_cons_of_pos _ (by simpa [beq_iff_eq] using ha)] at hfind
      injection hfind with h'
      subst h'
      have hh : (if a.ID == newPR.ID then newPR else a) = newPR := by
        simp [hid]
      rw [hh]
      exact List.find?_cons_of_pos _ (by simp [hid, hpr])
    · rw [List.find?_cons_of_neg _ (by simpa [beq_iff_eq] using ha)] at hfind
      have hh : (if a.ID == newPR.ID then newPR else a) = a := by
        simp [hid, hpr, ha]
      rw [hh]
      rw [List.find?_cons_of_neg _ (by simpa [beq_iff_eq] using ha)]
      exact ih hfind

/-! ### Unfolded forms and inversion lemmas for the service operations -/

theorem CreatePullRequest_eq (sh : List User → List User) (s : Store)
    (now : Nat) (pr : PullRequest) :
    CreatePullRequest sh s now pr =
      match getUser s pr.AuthorID with
      | .error err => .error err
      | .ok author =>
        match listUsersByTeam s author.TeamName with
        | .error err => .error err
        | .ok members =>
          createPullRequestStore s
            { pr with
              AssignedReviewers :=
                pickReviewers sh (filterReviewers members pr.AuthorID) 2,
              Status := StatusOpen, CreatedAt := now } := rfl

theorem MergePullRequest_eq (s : Store) (now : Nat) (prID : String) :
    MergePullRequest s now prID =
      match getPullRequest s prID with
      | .error err => .error err
      | .ok pr =>
        if pr.Status == StatusMerged then .ok (s, pr)
        else updatePullRequestStore s
          { pr with Status := StatusMerged, MergedAt := some now } := rfl

theorem ReassignReviewer_eq (sh : List User → List User) (s : Store)
    (prID oldReviewerID : String) :
    ReassignReviewer sh s prID oldReviewerID =
      match getPullRequest s prID with
      | .error err => .error err
      | .ok pr =>
        if pr.Status == StatusMerged then .error .ErrPRMerged
        else if reviewerIndex pr.AssignedReviewers oldReviewerID == -1 then
          .error .ErrReviewerNotFound
        else
          match getUser s oldReviewerID with
          | .error err => .error err
          | .ok oldReviewer =>
            match listUsersByTeam s oldReviewer.TeamName with
            | .error err => .error err
            | .ok members =>
              if (filterForReplacement members oldReviewerID pr.AssignedReviewers).length = 0 then
                .error .ErrNoReplacement
              else if (pickReviewers sh
                  (filterForReplacement members oldReviewerID pr.AssignedReviewers) 1).length = 0 then
                .error .ErrNoReplacement
              else
                match updatePullRequestStore s
                  { pr with
                    AssignedReviewers := (pr.AssignedReviewers.set
                      (reviewerIndex pr.AssignedReviewers oldReviewerID).toNat
                      ((pickReviewers sh
                        (filterForReplacement members oldReviewerID pr.AssignedReviewers) 1).headD "")) } with
                | .error err => .error err
                | .ok (s2, updatedPR) => .ok (s2, updatedPR,
                    (pickReviewers sh
                      (filterForReplacement members oldReviewerID pr.AssignedReviewers) 1).headD "") := rfl

theorem create_ok_inv {sh : List User → List User} {s : Store} {now : Nat}
    {pr : PullRequest} {s' : Store} {pr' : PullRequest}
    (h : CreatePullRequest sh s now pr = .ok (s', pr')) :
    ∃ author members,
      getUser s pr.AuthorID = .ok author ∧
      listUsersByTeam s author.TeamName = .ok members ∧
      pr' = { pr with
        AssignedReviewers := pickReviewers sh (filterReviewers members pr.AuthorID) 2,
        Status := StatusOpen, CreatedAt := now } ∧
      s.prs.find? (fun p => p.ID == pr.ID) = none ∧
      s' = { s with prs := s.prs ++ [pr'] } := by
  rw [CreatePullRequest_eq] at h
  split at h
  · cases h
  · rename_i author hau
    split at h
    · cases h
    · rename_i members hms
      unfold createPullRequestStore at h
      split at h
      · cases h
      · rename_i hfound
        injection h with h'
        rw [Prod.mk.injEq] at h'
        obtain ⟨h1, h2⟩ := h'
        refine ⟨author, members, hau, hms, h2.symm, ?_, ?_⟩
        · simpa using Option.not_isSome_iff_eq_none.mp hfound
        · rw [← h1, h2]

theorem merge_ok_inv {s : Store} {now : Nat} {prID : String} {s' : Store}
    {pr' : PullRequest} (h : MergePullRequest s now prID = .ok (s', pr')) :
    ∃ pr, getPullRequest s prID = .ok pr ∧
      ((pr.Status = StatusMerged ∧ s' = s ∧ pr' = pr) ∨
       (pr.Status ≠ StatusMerged ∧
        pr' = { pr with Status := StatusMerged, MergedAt := some now } ∧
        s' = { s with prs := s.prs.map fun p => if p.ID == pr'.ID then pr' else p })) := by
  rw [MergePullRequest_eq] at h
  split at h
  · cases h
  · rename_i pr hpr
    refine ⟨pr, hpr, ?_⟩
    split at h
    · rename_i hst
      injection h with h'
      rw [Prod.mk.injEq] at h'
      obtain ⟨h1, h2⟩ := h'
      exact Or.inl ⟨by simpa [beq_iff_eq] using hst, h1.symm, h2.symm⟩
    · rename_i hst
      obtain ⟨h2, h1⟩ := updatePullRequestStore_ok h
      refine Or.inr ⟨by simpa [beq_iff_eq] using hst, h2, ?_⟩
      rw [h1, h2]

theorem reassign_ok_inv {sh : List User → List User} {s : Store}
    {prID oldReviewerID : String} {s' : Store} {pr' : PullRequest}
    {newID : String}
    (h : ReassignReviewer sh s prID oldReviewerID = .ok (s', pr', newID)) :
    ∃ pr oldReviewer members,
      getPullRequest s prID = .ok pr ∧
      pr.Status ≠ StatusMerged ∧
      reviewerIndex pr.AssignedReviewers oldReviewerID ≠ -1 ∧
      getUser s oldReviewerID = .ok oldReviewer ∧
      listUsersByTeam s oldReviewer.TeamName = .ok members ∧
      filterForReplacement members oldReviewerID pr.AssignedReviewers ≠ [] ∧
      pickReviewers sh (filterForReplacement members oldReviewerID pr.AssignedReviewers) 1 ≠ [] ∧
      newID = (pickReviewers sh
        (filterForReplacement members oldReviewerID pr.AssignedReviewers) 1).headD "" ∧
      pr' = { pr with AssignedReviewers :=
        (pr.AssignedReviewers.set
          (reviewerIndex pr.AssignedReviewers oldReviewerID).toNat newID) } ∧
      s' = { s with prs := s.prs.map fun p => if p.ID == pr'.ID then pr' else p } := by
  rw [ReassignReviewer_eq] at h
  split at h
  · cases h
  · rename_i pr hpr
    split at h
    · cases h
    · rename_i hst
      split at h
      · cases h
      · rename_i hidx
        split at h
        · cases h
        · rename_i oldReviewer hou
          split at h
          · cases h
          · rename_i members hms
            split at h
            · cases h
            · rename_i hcand
              split at h
              · cases h
              · rename_i hrep
                split at h
                · cases h
                · rename_i s2 updatedPR hupd
                  injection h with h'
                  rw [Prod.mk.injEq, Prod.mk.injEq] at h'
                  obtain ⟨h1, h3, h4⟩ := h'
                  obtain ⟨hu2, hu1⟩ := updatePullRequestStore_ok hupd
                  refine ⟨pr, oldReviewer, members, hpr, ?_, ?_, hou, hms, ?_, ?_,
                    h4.symm, ?_, ?_⟩
                  · simpa [beq_iff_eq] using hst
                  · simpa [beq_iff_eq] using hidx
                  · intro hnil
                    exact hcand (by simp [hnil])
                  · intro hnil
                    exact hrep (by simp [hnil])
                  · rw [← h4]
                    exact h3.symm.trans hu2
                  · rw [← h1, hu1, h3.symm.trans hu2]

/-! ### Claim theorems -/

/-- C1, counterexample.  The claim "the PR's author is never a member of its
assigned-reviewers set under every sequence of core operations" is false:
with the identity permutation (a legitimate outcome of `rnd.Shuffle`), in a
two-user team the author `a` creates a PR that gets the sole teammate `b` as
reviewer, and reassigning `b` selects the author `a` as the replacement,
because `filterForReplacement` does not exclude the PR's author. -/
theorem reassign_selects_author_counterexample :
    CreatePullRequest (fun l => l) pairStore0 0 (handlerCreateInput "pr-1" "Demo" "a")
      = .ok (pairStore1, pairPR1) ∧
    ReassignReviewer (fun l => l) pairStore1 "pr-1" "b"
      = .ok (pairStore2, pairPR2, "a") ∧
    pairPR2.AuthorID = "a" ∧ pairPR2.AssignedReviewers = ["a"] ∧
    pairPR2.AuthorID ∈ pairPR2.AssignedReviewers := by
  refine ⟨rfl, rfl, rfl, rfl, ?_⟩
  decide

/-- C1, amended: `CreatePullRequest` never assigns the author as a reviewer
(creation filters the author out of the candidate pool); `ReassignReviewer`,
however, does not exclude the PR's author from the replacement pool, so it
can select the author (see the counterexample). -/
theorem createPullRequest_author_not_reviewer
    (sh : List User → List User) (s : Store) (now : Nat) (pr : PullRequest)
    (s' : Store) (pr' : PullRequest)
    (hsh : ∀ l, (sh l).Perm l)
    (hok : CreatePullRequest sh s now pr = .ok (s', pr')) :
    pr'.AuthorID ∉ pr'.AssignedReviewers := by
  obtain ⟨author, members, hau, hms, hpr', hfind, hs'⟩ := create_ok_inv hok
  subst hpr'
  intro hmem
  obtain ⟨u, hu, hid⟩ := mem_pickReviewers (hsh _) hmem
  exact (mem_filterReviewers.mp hu).2.1 hid

/-- Witness for C1 (amended): the creation in `demoStore` never assigns the
author `u1`. -/
theorem createPullRequest_author_not_reviewer_witness :
    demoCreatedPR.AuthorID ∉ demoCreatedPR.AssignedReviewers :=
  createPullRequest_author_not_reviewer (fun l => l) demoStore 3
    (handlerCreateInput "pr-new" "New" "u1") demoStoreCreate demoCreatedPR
    (fun l => List.Perm.refl l) rfl

/-- C2: merging an already-`MERGED` PR returns the stored record unchanged
(same status and same merge timestamp as the first merge) and leaves the
store untouched — no store write happens. -/
theorem mergePullRequest_idempotent (s : Store) (now : Nat) (prID : String)
    (pr : PullRequest) (hget : getPullRequest s prID = .ok pr)
    (hmerged : pr.Status = StatusMerged) :
    MergePullRequest s now prID = .ok (s, pr) := by
  rw [MergePullRequest_eq, hget]
  simp [hmerged]

/-- Witness for C2: re-merging the merged demo PR at a later time returns the
original record and store. -/
theorem mergePullRequest_idempotent_witness :
    MergePullRequest demoStore 9 "pr-merged" = .ok (demoStore, demoMergedPR) :=
  mergePullRequest_idempotent demoStore 9 "pr-merged" demoMergedPR rfl rfl

/-- C3: when the author has at least 2 active teammates (the filtered
candidate pool has length ≥ 2) and user ids are unique in the store,
creation assigns exactly 2 reviewers, the author is not among them, they are
pairwise distinct, and each is an active member of the author's team other
than the author. -/
theorem createPullRequest_two_reviewers
    (sh : List User → List User) (s : Store) (now : Nat) (pr : PullRequest)
    (s' : Store) (pr' : PullRequest) (author : User) (members : List User)
    (hsh : ∀ l, (sh l).Perm l)
    (hnd : (s.users.map User.ID).Nodup)
    (hau : getUser s pr.AuthorID = .ok author)
    (hms : listUsersByTeam s author.TeamName = .ok members)
    (hcard : 2 ≤ (filterReviewers members pr.AuthorID).length)
    (hok : CreatePullRequest sh s now pr = .ok (s', pr')) :
    pr'.AssignedReviewers.length = 2 ∧
    pr.AuthorID ∉ pr'.AssignedReviewers ∧
    pr'.AssignedReviewers.Nodup ∧
    ∀ r ∈ pr'.AssignedReviewers, ∃ u ∈ members,
      u.ID = r ∧ u.IsActive = true ∧ u.TeamName = author.TeamName ∧
      u.ID ≠ pr.AuthorID := by
  obtain ⟨author', members', hau', hms', hpr', hfind, hs'⟩ := create_ok_inv hok
  have ha : author = author' := by
    have := hau.symm.trans hau'
    injection this
  subst ha
  have hm : members = members' := by
    have := hms.symm.trans hms'
    injection this
  subst hm
  subst hpr'
  have hmnd : (members.map User.ID).Nodup := nodup_listUsersByTeam hms hnd
  have hcnd : ((filterReviewers members pr.AuthorID).map User.ID).Nodup :=
    hmnd.sublist ((List.filter_sublist _).map User.ID)
  refine ⟨?_, ?_, ?_, ?_⟩
  · have := length_pickReviewers sh (filterReviewers members pr.AuthorID) 2 (hsh _)
    simpa [this] using by omega
  · intro hmem
    obtain ⟨u, hu, hid⟩ := mem_pickReviewers (hsh _) hmem
    exact (mem_filterReviewers.mp hu).2.1 hid
  · exact nodup_pickReviewers sh _ 2 (hsh _) hcnd
  · intro r hr
    obtain ⟨u, hu, hid⟩ := mem_pickReviewers (hsh _) hr
    obtain ⟨humem, hne, hact⟩ := mem_filterReviewers.mp hu
    exact ⟨u, humem, hid, hact, (mem_of_listUsersByTeam hms humem).2, hne⟩

/-- Witness for C3: creation in the demo store assigns exactly the two
active teammates of `u1`. -/
theorem createPullRequest_two_reviewers_witness :
    demoCreatedPR.AssignedReviewers.length = 2 ∧
    "u1" ∉ demoCreatedPR.AssignedReviewers ∧
    demoCreatedPR.AssignedReviewers.Nodup :=
  have h := createPullRequest_two_reviewers (fun l => l) demoStore 3
    (handlerCreateInput "pr-new" "New" "u1") demoStoreCreate demoCreatedPR
    u1 [u1, u2, u3, u4] (fun l => List.Perm.refl l) (by decide) rfl rfl
    (by decide) rfl
  ⟨h.1, h.2.1, h.2.2.1⟩

/-- C4: for every candidate pool and requested count, `pickReviewers`
returns `min count (pool size)` ids (in particular all of them when the
pool is smaller than the requested count), without any error result. -/
theorem pickReviewers_count (sh : List User → List User) (users : List User)
    (count : Int) (hsh : ∀ l, (sh l).Perm l) :
    (pickReviewers sh users count).length = min count.toNat users.length ∧
    ((users.length : Int) < count →
      (pickReviewers sh users count).Perm (users.map User.ID)) :=
  ⟨length_pickReviewers sh users count (hsh users),
   fun h => pickReviewers_all sh users count (hsh users) h⟩

/-- Witness for C4: a pool with exactly one member and requested count 2
yields exactly that one reviewer. -/
theorem pickReviewers_count_witness :
    (pickReviewers (fun l => l) [pairMate] 2).length =
      min (2 : Int).toNat [pairMate].length ∧
    pickReviewers (fun l => l) [pairMate] 2 = ["b"] :=
  ⟨(pickReviewers_count (fun l => l) [pairMate] 2 (fun l => List.Perm.refl l)).1,
   rfl⟩

/-- C5: a successful reassignment picks a replacement that is not in the
PR's current reviewer set (hence not in the remaining set), is not the
removed reviewer's id, and is an active member of the removed reviewer's
team roster. -/
theorem reassignReviewer_replacement_valid
    (sh : List User → List User) (s : Store) (prID oldReviewerID : String)
    (s' : Store) (pr' : PullRequest) (newID : String)
    (hsh : ∀ l, (sh l).Perm l)
    (hok : ReassignReviewer sh s prID oldReviewerID = .ok (s', pr', newID)) :
    ∃ pr oldReviewer members,
      getPullRequest s prID = .ok pr ∧
      getUser s oldReviewerID = .ok oldReviewer ∧
      listUsersByTeam s oldReviewer.TeamName = .ok members ∧
      newID ∉ pr.AssignedReviewers ∧
      newID ≠ oldReviewerID ∧
      ∃ u ∈ members, u.ID = newID ∧ u.IsActive = true := by
  obtain ⟨pr, oldR, members, hpr, hst, hidx, hou, hms, hcand, hrepne, hnew,
    hpr', hs'⟩ := reassign_ok_inv hok
  have hmem : newID ∈ pickReviewers sh
      (filterForReplacement members oldReviewerID pr.AssignedReviewers) 1 := by
    rw [hnew]
    exact headD_mem hrepne
  obtain ⟨u, hu, huid⟩ := mem_pickReviewers (hsh _) hmem
  obtain ⟨humem, hne, hact, hnotass⟩ := mem_filterForReplacement.mp hu
  subst huid
  exact ⟨pr, oldR, members, hpr, hou, hms, hnotass, hne, u, humem, rfl, hact⟩

/-- Witness for C5: the demo reassignment replaces `u2` by `u1`, which is
not assigned, differs from `u2`, and is active. -/
theorem reassignReviewer_replacement_valid_witness :
    ∃ pr oldReviewer members,
      getPullRequest demoStore "pr-open" = .ok pr ∧
      getUser demoStore "u2" = .ok oldReviewer ∧
      listUsersByTeam demoStore oldReviewer.TeamName = .ok members ∧
      "u1" ∉ pr.AssignedReviewers ∧
      ("u1" : String) ≠ "u2" ∧
      ∃ u ∈ members, u.ID = "u1" ∧ u.IsActive = true :=
  reassignReviewer_replacement_valid (fun l => l) demoStore "pr-open" "u2"
    demoStoreReassign demoReassignedPR "u1" (fun l => List.Perm.refl l) rfl

/-- C6: `ReassignReviewer` fails with exactly the spec's error for every
failure case, checked in the spec's precedence order (`reassignErrorSpec`),
and succeeds exactly when the spec prescribes no error. -/
theorem reassignReviewer_error_precedence
    (sh : List User → List User) (s : Store) (prID oldReviewerID : String)
    (hsh : ∀ l, (sh l).Perm l) :
    (∀ e, ReassignReviewer sh s prID oldReviewerID = .error e ↔
      reassignErrorSpec s prID oldReviewerID = some e) ∧
    (reassignErrorSpec s prID oldReviewerID = none ↔
      ∃ r, ReassignReviewer sh s prID oldReviewerID = .ok r) := by
  cases hgp : getPullRequest s prID with
  | error e0 =>
    have he0 : e0 = .ErrPullRequestNotFound := getPullRequest_error hgp
    subst he0
    simp [ReassignReviewer_eq, reassignErrorSpec, hgp]
  | ok pr =>
    by_cases hst : pr.Status = StatusMerged
    · simp [ReassignReviewer_eq, reassignErrorSpec, hgp, hst, StatusMerged]
    · have hstb : (pr.Status == StatusMerged) = false := by
        simp [hst]
      by_cases hin : oldReviewerID ∈ pr.AssignedReviewers
      · have hidxb : (reviewerIndex pr.AssignedReviewers oldReviewerID == -1) = false := by
          rw [beq_eq_false_iff_ne, ne_eq, reviewerIndex_eq_neg_one]
          simpa using hin
        cases hgu : getUser s oldReviewerID with
        | error e1 =>
          have he1 : e1 = .ErrUserNotFound := getUser_error hgu
          subst he1
          simp [ReassignReviewer_eq, reassignErrorSpec, hgp, hst, hstb, hin,
            hidxb, hgu]
        | ok oldReviewer =>
          cases hms : listUsersByTeam s oldReviewer.TeamName with
          | error e2 =>
            simp [ReassignReviewer_eq, reassignErrorSpec, hgp, hst, hstb, hin,
              hidxb, hgu, hms]
          | ok members =>
            by_cases hpool :
                filterForReplacement members oldReviewerID pr.AssignedReviewers = []
            · have hps :
                  replacementPoolSpec members oldReviewerID pr.AssignedReviewers = [] := by
                rw [← filterForReplacement_eq_poolSpec]
                exact hpool
              simp [ReassignReviewer_eq, reassignErrorSpec, hgp, hst, hstb, hin,
                hidxb, hgu, hms, hpool, hps]
            · have hps :
                  ¬(replacementPoolSpec members oldReviewerID pr.AssignedReviewers = []) := by
                rw [← filterForReplacement_eq_poolSpec]
                exact hpool
              have hlpool :
                  ¬((filterForReplacement members oldReviewerID pr.AssignedReviewers).length = 0) := by
                rw [List.length_eq_zero]
                exact hpool
              have hrep : pickReviewers sh
                  (filterForReplacement members oldReviewerID pr.AssignedReviewers) 1 ≠ [] :=
                pickReviewers_ne_nil sh _ 1 (hsh _) hpool (by norm_num)
              have hlrep : ¬((pickReviewers sh
                  (filterForReplacement members oldReviewerID pr.AssignedReviewers) 1).length = 0) := by
                rw [List.length_eq_zero]
                exact hrep
              have hfind : s.prs.find? (fun p => p.ID == pr.ID) = some pr := by
                obtain ⟨_, hid, hf⟩ := getPullRequest_ok hgp
                rw [hid]
                exact hf
              simp [ReassignReviewer_eq, reassignErrorSpec, hgp, hst, hstb, hin,
                hidxb, hgu, hms, hps, hlpool, hlrep, updatePullRequestStore, hfind]
      · have hidxb : (reviewerIndex pr.AssignedReviewers oldReviewerID == -1) = true := by
          rw [beq_iff_eq, reviewerIndex_eq_neg_one]
          exact hin
        simp [ReassignReviewer_eq, reassignErrorSpec, hgp, hst, hstb, hin, hidxb]

/-- Witness for C6: the merged demo PR yields exactly the `PRMerged` error,
matching the spec outcome. -/
theorem reassignReviewer_error_precedence_witness :
    ReassignReviewer (fun l => l) demoStore "pr-merged" "u2" =
        .error DomainError.ErrPRMerged ↔
      reassignErrorSpec demoStore "pr-merged" "u2" = some DomainError.ErrPRMerged :=
  (reassignReviewer_error_precedence (fun l => l) demoStore "pr-merged" "u2"
    (fun l => List.Perm.refl l)).1 DomainError.ErrPRMerged

/-- C7: over a consistent store, every core operation preserves "merge
timestamp present iff status `MERGED`": creation (with the handler-shaped
input) produces an `OPEN` record with no timestamp, merge sets the
timestamp exactly at the `OPEN`→`MERGED` transition and leaves an
already-merged record untouched, and reassignment keeps the record `OPEN`
with no timestamp. -/
theorem mergedAt_iff_merged_invariant
    (sh : List User → List User) (s : Store) (hs : storeConsistent s) :
    (∀ id name authorID now s' pr',
      CreatePullRequest sh s now (handlerCreateInput id name authorID) = .ok (s', pr') →
        storeConsistent s' ∧ pr'.MergedAt = none ∧ pr'.Status = StatusOpen) ∧
    (∀ now prID s' pr' pr,
      getPullRequest s prID = .ok pr →
      MergePullRequest s now prID = .ok (s', pr') →
        storeConsistent s' ∧ pr'.Status = StatusMerged ∧
        (pr.Status = StatusMerged → pr' = pr) ∧
        (pr.Status ≠ StatusMerged → pr'.MergedAt = some now)) ∧
    (∀ prID old s' pr' newID,
      ReassignReviewer sh s prID old = .ok (s', pr', newID) →
        storeConsistent s' ∧ pr'.Status ≠ StatusMerged ∧ pr'.MergedAt = none) := by
  refine ⟨?_, ?_, ?_⟩
  · intro id name authorID now s' pr' hok
    obtain ⟨author, members, hau, hms, hpr', hfind, hs'⟩ := create_ok_inv hok
    subst hpr'
    subst hs'
    refine ⟨?_, rfl, rfl⟩
    intro p hp
    rcases List.mem_append.mp hp with hp | hp
    · exact hs p hp
    · have hpe := List.mem_singleton.mp hp
      subst hpe
      constructor
      · intro hfalse
        simp [handlerCreateInput] at hfalse
      · intro hfalse
        have hso : StatusOpen = StatusMerged := hfalse
        exact absurd hso (by decide)
  · intro now prID s' pr' pr hget hok
    obtain ⟨pr0, hget0, hcase⟩ := merge_ok_inv hok
    have hpe : pr0 = pr := by
      have := hget0.symm.trans hget
      injection this
    subst hpe
    rcases hcase with ⟨hm, hss, hpp⟩ | ⟨hm, hpp, hss⟩
    · subst hss
      subst hpp
      exact ⟨hs, hm, fun _ => rfl, fun hc => absurd hm hc⟩
    · subst hpp
      subst hss
      refine ⟨?_, rfl, fun hc => absurd hc hm, fun _ => rfl⟩
      intro p hp
      obtain ⟨q, hq, hfq⟩ := List.mem_map.mp hp
      split at hfq
      · subst hfq
        simp
      · subst hfq
        exact hs q hq
  · intro prID old s' pr' newID hok
    obtain ⟨pr, oldR, members, hpr, hst, hidx, hou, hms, hcand, hrepne, hnew,
      hpr', hs'⟩ := reassign_ok_inv hok
    have hconspr := hs pr (getPullRequest_ok hpr).1
    have hopenAt : pr.MergedAt = none := by
      have hnotsome : ¬(pr.MergedAt.isSome = true) := fun hh => hst (hconspr.mp hh)
      exact Option.not_isSome_iff_eq_none.mp hnotsome
    subst hpr'
    refine ⟨?_, hst, hopenAt⟩
    subst hs'
    intro p hp
    obtain ⟨q, hq, hfq⟩ := List.mem_map.mp hp
    split at hfq
    · subst hfq
      exact hconspr
    · subst hfq
      exact hs q hq

/-- Witness for C7: the demo store is consistent and stays so after the
concrete creation, which yields an `OPEN` record without a merge
timestamp. -/
theorem mergedAt_iff_merged_invariant_witness :
    storeConsistent demoStoreCreate ∧ demoCreatedPR.MergedAt = none ∧
      demoCreatedPR.Status = StatusOpen :=
  (mergedAt_iff_merged_invariant (fun l => l) demoStore
    (by unfold storeConsistent; decide)).1 "pr-new" "New" "u1" 3
    demoStoreCreate demoCreatedPR rfl

/-- C8: a successful reassignment replaces the removed reviewer at its
position in the reviewer list: the position held the removed id before,
holds the replacement after, every other position is unchanged, the
returned PR is the stored record so updated, and the returned replacement
id is a member of its reviewer set. -/
theorem reassignReviewer_same_position
    (sh : List User → List User) (s : Store) (prID oldReviewerID : String)
    (s' : Store) (pr' : PullRequest) (newID : String)
    (hok : ReassignReviewer sh s prID oldReviewerID = .ok (s', pr', newID)) :
    ∃ (pr : PullRequest) (i : Nat),
      getPullRequest s prID = .ok pr ∧
      reviewerIndex pr.AssignedReviewers oldReviewerID = (i : Int) ∧
      pr.AssignedReviewers.get? i = some oldReviewerID ∧
      pr' = { pr with AssignedReviewers := (pr.AssignedReviewers.set i newID) } ∧
      pr'.AssignedReviewers.get? i = some newID ∧
      (∀ j, j ≠ i → pr'.AssignedReviewers.get? j = pr.AssignedReviewers.get? j) ∧
      newID ∈ pr'.AssignedReviewers := by
  obtain ⟨pr, oldR, members, hpr, hst, hidx, hou, hms, hcand, hrepne, hnew,
    hpr', hs'⟩ := reassign_ok_inv hok
  rcases reviewerIndex_spec pr.AssignedReviewers oldReviewerID with ⟨h1, _⟩ | ⟨i, hi, hg⟩
  · exact absurd h1 hidx
  · have htn : ((i : Int)).toNat = i := by omega
    have hilt : i < pr.AssignedReviewers.length := by
      obtain ⟨hlt, _⟩ := List.get?_eq_some.mp hg
      exact hlt
    rw [hi, htn] at hpr'
    refine ⟨pr, i, hpr, hi, hg, hpr', ?_, ?_, ?_⟩
    · rw [hpr']
      exact List.get?_set_eq_of_lt newID hilt
    · intro j hj
      rw [hpr']
      exact List.get?_set_ne newID _ (Ne.symm hj)
    · rw [hpr']
      exact List.get?_mem (List.get?_set_eq_of_lt newID hilt)

/-- Witness for C8: the demo reassignment replaces `u2` by `u1` at
position 0 and keeps `u3` at position 1. -/
theorem reassignReviewer_same_position_witness :
    ∃ (pr : PullRequest) (i : Nat),
      getPullRequest demoStore "pr-open" = .ok pr ∧
      reviewerIndex pr.AssignedReviewers "u2" = (i : Int) ∧
      pr.AssignedReviewers.get? i = some "u2" ∧
      demoReassignedPR = { pr with AssignedReviewers := (pr.AssignedReviewers.set i "u1") } ∧
      demoReassignedPR.AssignedReviewers.get? i = some "u1" ∧
      (∀ j, j ≠ i →
        demoReassignedPR.AssignedReviewers.get? j = pr.AssignedReviewers.get? j) ∧
      "u1" ∈ demoReassignedPR.AssignedReviewers :=
  reassignReviewer_same_position (fun l => l) demoStore "pr-open" "u2"
    demoStoreReassign demoReassignedPR "u1" rfl

/-- C9: the record creation hands to the store has status `OPEN` and exactly
the engine's selection as reviewers; any caller-supplied status or reviewer
list is discarded — the result does not depend on them at all. -/
theorem createPullRequest_overrides_input
    (sh : List User → List User) (s : Store) (now : Nat) (pr : PullRequest)
    (s' : Store) (pr' : PullRequest)
    (hok : CreatePullRequest sh s now pr = .ok (s', pr')) :
    pr'.Status = StatusOpen ∧
    (∃ author members,
      getUser s pr.AuthorID = .ok author ∧
      listUsersByTeam s author.TeamName = .ok members ∧
      pr'.AssignedReviewers = pickReviewers sh (filterReviewers members pr.AuthorID) 2) ∧
    (∀ st0 rv0,
      CreatePullRequest sh s now { pr with Status := st0, AssignedReviewers := rv0 } =
        CreatePullRequest sh s now pr) ∧
    s'.prs = s.prs ++ [pr'] := by
  obtain ⟨author, members, hau, hms, hpr', hfind, hs'⟩ := create_ok_inv hok
  refine ⟨?_, ⟨author, members, hau, hms, ?_⟩, ?_, ?_⟩
  · rw [hpr']
  · rw [hpr']
  · intro st0 rv0
    rfl
  · rw [hs']

/-- Witness for C9: a creation input carrying a bogus status and reviewer
list produces the same clean record as the handler-shaped input. -/
theorem createPullRequest_overrides_input_witness :
    demoCreatedPR.Status = StatusOpen ∧
      demoStoreCreate.prs = demoStore.prs ++ [demoCreatedPR] :=
  have h := createPullRequest_overrides_input (fun l => l) demoStore 3
    dirtyInput demoStoreCreate demoCreatedPR rfl
  ⟨h.1, h.2.2.2⟩

/-- C10: merging an `OPEN` PR changes only `Status` and `MergedAt`; the id,
name, author, reviewer set and creation timestamp of the loaded record are
unchanged. -/
theorem mergePullRequest_frame
    (s : Store) (now : Nat) (prID : String) (pr : PullRequest)
    (s' : Store) (pr' : PullRequest)
    (hget : getPullRequest s prID = .ok pr)
    (hopen : pr.Status ≠ StatusMerged)
    (hok : MergePullRequest s now prID = .ok (s', pr')) :
    pr'.ID = pr.ID ∧ pr'.Name = pr.Name ∧ pr'.AuthorID = pr.AuthorID ∧
    pr'.AssignedReviewers = pr.AssignedReviewers ∧ pr'.CreatedAt = pr.CreatedAt ∧
    pr'.Status = StatusMerged ∧ pr'.MergedAt = some now := by
  obtain ⟨pr0, hget0, hcase⟩ := merge_ok_inv hok
  have hpe : pr0 = pr := by
    have := hget0.symm.trans hget
    injection this
  subst hpe
  rcases hcase with ⟨hm, _, _⟩ | ⟨_, hpp, _⟩
  · exact absurd hm hopen
  · subst hpp
    exact ⟨rfl, rfl, rfl, rfl, rfl, rfl, rfl⟩

/-- Witness for C10: merging the open demo PR at time 7 only flips status
and timestamp. -/
theorem mergePullRequest_frame_witness :
    demoMergedOpenPR.AssignedReviewers = demoOpenPR.AssignedReviewers ∧
      demoMergedOpenPR.Status = StatusMerged ∧
      demoMergedOpenPR.MergedAt = some 7 :=
  have h := mergePullRequest_frame demoStore 7 "pr-open" demoOpenPR
    demoStoreMerge demoMergedOpenPR rfl (by decide) rfl
  ⟨h.2.2.2.1, h.2.2.2.2.2.1, h.2.2.2.2.2.2⟩

end Avito
